import Mathlib

/-!
Verification development for the Katnip compiler front end (lexer and parser).

The definitions below are a shallow embedding of the TypeScript sources:
  * `packages/compiler/src/lexer/Lexer.ts` (the trie-based lexer and the token
    tables / operator trie it imports from `Token.ts`),
  * `packages/compiler/src/parser/Parser.ts` and
    `packages/compiler/src/parser/BindingPowerTable.ts`.

JavaScript strings are modelled as `List Char` / `String`, numbers used for
line/column bookkeeping as `Int` (the parser uses `-1` sentinels), mutation as
explicit state passing, and the two `while` loops of `tokenize`/`parse`
(which are not structurally terminating) as fuel-indexed functions returning
`Option`/a dedicated result type, where running out of fuel models a run that
has not terminated within the given budget.
-/

set_option maxHeartbeats 1000000

namespace Katnip

/-! ## Common data model: positions, tokens, diagnostics -/

/-- `TokenPos` models the `{ line, column }` position records (`TokenPos` in
`Token.ts`, `KatnipErrorData` locations in `ErrorReporter.ts`).  `Int` is used
because the parser manufactures `-1` sentinel positions. -/
structure TokenPos where
  line : Int
  column : Int
deriving DecidableEq, Repr

/-- A source span, `SourceLocation` in `AST-nodes.ts`.  The `end` field of the
source is called `stop` here (`end` is a Lean keyword). -/
structure SourceLocation where
  start : TokenPos
  stop : TokenPos
deriving DecidableEq, Repr

/-- `TokenInfo` from `Token.ts`: a valued token `{ type, value }` or a unit
token `{ type }`.  Token types are runtime strings in the source, so they are
strings here. -/
inductive TokenInfo where
  | valued (type : String) (value : String)
  | unit (type : String)
deriving DecidableEq, Repr

/-- The `type` field common to both token shapes. -/
def TokenInfo.type : TokenInfo → String
  | .valued t _ => t
  | .unit t => t

/-- Reading `.value` off a token object.  On a unit token the source would read
the JavaScript `undefined`; call sites in the source only do this after an
`isValuedTokenType` guard (or a cast), and `undefined` coerced to a string is
`"undefined"`, which is what this returns for the unguarded shape. -/
def TokenInfo.valueJS : TokenInfo → String
  | .valued _ v => v
  | .unit _ => "undefined"

/-- `Token` from `Token.ts`: token info plus start/end positions.  The source
field `end` is called `stop`. -/
structure Token where
  token : TokenInfo
  start : TokenPos
  stop : TokenPos
deriving DecidableEq, Repr

/-- `KatnipError` from `ErrorReporter.ts` (source tag, message, position).
The optional `length` field is never set by the lexer or parser and is
omitted. -/
structure KatnipError where
  source : String
  message : String
  line : Int
  column : Int
deriving DecidableEq, Repr

/-! ## Token tables and the operator trie (`Token.ts`)

In the current `Token.ts` the unit token types *are* their lexemes
(`Plus: "+"`, `Power: "**"`, `EOF: "<EOF>"`, ...), so a unit token type is
represented by its lexeme string.  `unitTokenLexemes` lists
`Object.values(UnitTokenType)` in source order. -/

def valuedTokenTypes : List String :=
  ["String", "InterpolatedString", "InsideInterpolatedString", "Number",
   "Comment_SingleExpanded", "Comment_SingleCollapsed", "Comment_SingleIgnored",
   "Comment_MultilineExpanded", "Comment_MultilineCollapsed", "Comment_MultilineIgnored",
   "Identifier", "ErrorToken"]

def unitTokenLexemes : List String :=
  ["[", "]", "\x7b", "\x7d", "(", ")",
   ".", ",", ":", ";", "@",
   "#", "?",
   "+", "-", "*", "/", "%", "^", "!", "&", "|", "<", ">", "=",
   "**", "==", "<=", ">=", "&&", "||", "!&", "!|", "!^",
   "+=", "-=", "*=", "**=", "/=", "%=",
   "->", "\n", "<EOF>"]

def isValuedTokenType (t : String) : Bool := valuedTokenTypes.contains t

def isUnitTokenType (t : String) : Bool := unitTokenLexemes.contains t

/-- `singleCharUnitTokens`: the unit token lexemes of length 1. -/
def singleCharUnitTokens : List String := unitTokenLexemes.filter (fun s => s.length = 1)

/-- `OperatorTrieNode`: children keyed by characters, plus an optional
terminal operator kind. -/
inductive OperatorTrieNode where
  | mk (children : List (Char × OperatorTrieNode)) (tokenType : Option String)
deriving Repr

def OperatorTrieNode.children : OperatorTrieNode → List (Char × OperatorTrieNode)
  | .mk c _ => c

def OperatorTrieNode.tokenType : OperatorTrieNode → Option String
  | .mk _ t => t

/-- `OperatorTrie.step`: `node.children.get(char) ?? null`. -/
def trieStep (n : OperatorTrieNode) (c : Char) : Option OperatorTrieNode :=
  (n.children.find? (fun p => p.1 = c)).map (fun p => p.2)

/-- Update an association list at a key, preserving insertion order
(JavaScript `Map.set`). -/
def assocSet : List (Char × OperatorTrieNode) → Char → OperatorTrieNode →
    List (Char × OperatorTrieNode)
  | [], c, v => [(c, v)]
  | (c', w) :: t, c, v => if c' = c then (c, v) :: t else (c', w) :: assocSet t c v

/-- `OperatorTrie.insert`: walk/extend the trie along the lexeme, then mark the
final node with the operator kind. -/
def trieInsert : OperatorTrieNode → List Char → String → OperatorTrieNode
  | .mk children _, [], op => .mk children (some op)
  | n, c :: rest, op =>
    let child := match trieStep n c with
      | some m => m
      | none => .mk [] none
    .mk (assocSet n.children c (trieInsert child rest op)) n.tokenType

/-- `operatorTrie = new OperatorTrie(Object.values(UnitTokenType))`. -/
def operatorTrie : OperatorTrieNode :=
  unitTokenLexemes.foldl (fun t op => trieInsert t op.data op) (.mk [] none)

/-! ## Lexer (`Lexer.ts`) -/

/-- `LexerState` from `LexerState.ts`.  `Punctuation` is declared in the enum
but has no case in the current lexer's `processState` switch. -/
inductive LexerState where
  | Start
  | Identifier
  | String
  | EscapedString
  | Number
  | Operator
  | Punctuation
  | Comment
deriving DecidableEq, Repr

/-- The mutable fields of the `Lexer` class. -/
structure LexState where
  src : List Char
  position : Nat
  line : Int
  lineStart : Int
  col : Int
  colStart : Int
  currentState : LexerState
  buffer : List Char
  stringQuote : Option Char
  commentType : String
  operatorNode : Option OperatorTrieNode
  lastValidOperatorNode : Option (OperatorTrieNode × Nat)
  tokens : List Token
  errors : List KatnipError
deriving Repr

/-- The `\x04` end-of-input sentinel character. -/
def eofSentinel : Char := Char.ofNat 4

/-- `Lexer.peek(distance)`: guarded on `position < src.length`, then an
unchecked index (out-of-range gives JavaScript `undefined`, i.e. `none`). -/
def lexPeek (s : LexState) (distance : Nat) : Option Char :=
  if s.position < s.src.length then s.src.get? (s.position + distance) else none

/-- `Lexer.advance()` (always called with the default amount 1): consume one
character, updating line/column bookkeeping, and return it. -/
def lexAdvance (s : LexState) : Option Char × LexState :=
  match s.src.get? s.position with
  | none => (none, s)
  | some c =>
    if c = '\n' then
      (some c, { s with position := s.position + 1, line := s.line + 1, col := 1 })
    else
      (some c, { s with position := s.position + 1, col := s.col + 1 })

/-- The JavaScript `\s` class, restricted to the ASCII whitespace characters
(the only ones that occur in this development). -/
def isJsSpace (c : Char) : Bool :=
  c = ' ' || c = '\t' || c = '\n' || c = '\r' || c = Char.ofNat 11 || c = Char.ofNat 12

/-- JavaScript `String.prototype.trim`. -/
def jsTrim (l : List Char) : List Char :=
  ((l.dropWhile isJsSpace).reverse.dropWhile isJsSpace).reverse

/-- `this.reporter.add(new KatnipError("Lexer", msg, { line, column }))` at the
lexer's current position. -/
def addLexError (s : LexState) (msg : String) : LexState :=
  { s with errors := s.errors ++ [⟨"Lexer", msg, s.line, s.col⟩] }

/-- `buffer += advance()`; a `null` return concatenates as the string
`"null"` in JavaScript. -/
def bufAppend (s : LexState) (c : Option Char) : LexState :=
  { s with buffer := s.buffer ++ (match c with | some ch => [ch] | none => "null".data) }

/-- Advance one character and append the result to the buffer
(`this.buffer += this.advance()`). -/
def advAppend (s : LexState) : LexState :=
  let p := lexAdvance s
  bufAppend p.2 p.1

/-- `Lexer.emit(type)`: trim the buffer, push a token whose span runs from the
recorded token start to the current position, clear the buffer, reset the
state to `Start`. -/
def emit (type : String) (s : LexState) : LexState :=
  let buf := jsTrim s.buffer
  let tokens :=
    if isValuedTokenType type then
      s.tokens ++ [⟨.valued type (String.mk buf), ⟨s.lineStart, s.colStart⟩, ⟨s.line, s.col⟩⟩]
    else if isUnitTokenType type then
      s.tokens ++ [⟨.unit type, ⟨s.lineStart, s.colStart⟩, ⟨s.line, s.col⟩⟩]
    else s.tokens
  { s with buffer := [], tokens := tokens, currentState := .Start }

def isIdentStart (c : Char) : Bool := c.isAlpha || c = '_'

def isIdentChar (c : Char) : Bool := c.isAlpha || c.isDigit || c = '_'

def isHexDigitChar (c : Char) : Bool :=
  c.isDigit || ('a' ≤ c && c ≤ 'f') || ('A' ≤ c && c ≤ 'F')

/-- A regex character-class test applied to a possibly-`undefined` peeked
character: `.test(undefined)` stringifies `undefined` to `"undefined"`, which
contains no character of any class used by the lexer, hence `false`. -/
def peekSat (oc : Option Char) (p : Char → Bool) : Bool :=
  match oc with
  | some c => p c
  | none => false

/-- The lexer's `escapeSequenceMap` (`\n`, `\t`, `\r`). -/
def escapeSequenceMap (c : Char) : Option Char :=
  if c = 'n' then some '\n'
  else if c = 't' then some '\t'
  else if c = 'r' then some '\r'
  else none

def hexVal (c : Char) : Nat :=
  if c.isDigit then c.toNat - '0'.toNat
  else if 'a' ≤ c && c ≤ 'f' then c.toNat - 'a'.toNat + 10
  else c.toNat - 'A'.toNat + 10

def jsParseIntHexCore : List Char → Nat → Bool → Option Nat
  | [], acc, seen => if seen then some acc else none
  | c :: rest, acc, seen =>
    if isHexDigitChar c then jsParseIntHexCore rest (acc * 16 + hexVal c) true
    else if seen then some acc else none

def jsStrip0x (l : List Char) : List Char :=
  match l with
  | '0' :: 'x' :: r => r
  | '0' :: 'X' :: r => r
  | _ => l

/-- JavaScript `parseInt(str, 16)`: leading whitespace, optional sign,
optional `0x` prefix, then the longest hex-digit prefix; `none` models `NaN`. -/
def jsParseIntHex (str : String) : Option Int :=
  let l := str.data.dropWhile isJsSpace
  match l with
  | '-' :: rest => (jsParseIntHexCore (jsStrip0x rest) 0 false).map (fun n => -(n : Int))
  | '+' :: rest => (jsParseIntHexCore (jsStrip0x rest) 0 false).map (fun n => (n : Int))
  | _ => (jsParseIntHexCore (jsStrip0x l) 0 false).map (fun n => (n : Int))

/-- `String.fromCharCode`: the argument is converted with `ToUint16`
(`NaN ↦ 0`); UTF-16 surrogate code units cannot inhabit `Char` and map to 0,
they play no role in this development. -/
def fromCharCode (v : Option Int) : Char :=
  match v with
  | none => Char.ofNat 0
  | some n => Char.ofNat (n % 65536).toNat

/-- The `for (let i = 0; i < 4; i++)` loop reading a `\uXXXX` escape:
each iteration advances, reports invalid/missing hex digits at the position
after the advance, and appends the character (or `"null"`) to the
accumulating `unicodeBuffer`. -/
def unicodeEscapeLoop : Nat → LexState → List Char → LexState × List Char
  | 0, s, ub => (s, ub)
  | k+1, s, ub =>
    let p := lexAdvance s
    let bad := match p.1 with
      | none => true
      | some c => !isHexDigitChar c
    let s' := if bad then addLexError p.2 "Invalid Unicode escape sequence" else p.2
    let ub' := ub ++ (match p.1 with | some c => [c] | none => "null".data)
    unicodeEscapeLoop k s' ub'

/-- The lexer's `commentMap`: comment-type marker ↦ (token type, end
delimiter). -/
def commentMap (key : String) : Option (String × String) :=
  if key = "none" then some ("Comment_SingleExpanded", "\n")
  else if key = "*" then some ("Comment_SingleCollapsed", "\n")
  else if key = "!" then some ("Comment_SingleIgnored", "\n")
  else if key = "<" then some ("Comment_MultilineExpanded", ">#")
  else if key = ">" then some ("Comment_MultilineCollapsed", "<#")
  else if key = "[" then some ("Comment_MultilineIgnored", "]#")
  else none

/-- `Lexer.processState(char)`: one step of every non-`Start` state. -/
def processState (c : Char) (s : LexState) : LexState :=
  match s.currentState with
  | .Identifier =>
    if isIdentChar c then advAppend s
    else
      let s' := emit "Identifier" s
      { s' with currentState := .Start }
  | .String =>
    if some c = s.stringQuote then emit "String" (advAppend s)
    else if c = '\\' then { advAppend s with currentState := .EscapedString }
    else advAppend s
  | .EscapedString =>
    let p := lexAdvance s
    match p.1 with
    | none =>
      -- `break` after reporting: the state stays `EscapedString`
      addLexError p.2 "Unterminated string literal"
    | some esc =>
      let s2 :=
        if esc = 'u' then
          let q := unicodeEscapeLoop 4 p.2 []
          { q.1 with buffer := q.1.buffer ++ [fromCharCode (jsParseIntHex (String.mk q.2))] }
        else
          { p.2 with buffer := p.2.buffer ++ [(escapeSequenceMap esc).getD esc] }
      { s2 with currentState := .String }
  | .Number =>
    if c.isDigit then advAppend s
    else if c = '.' then
      if s.buffer.contains '.' then
        let s' := emit "Number" (addLexError s "Invalid number format: Multiple decimal points")
        { s' with currentState := .Start }
      else advAppend s
    else if c = 'e' || c = 'E' then
      if s.buffer.contains 'e' || s.buffer.contains 'E' then
        let s' := emit "Number"
          (addLexError s "Invalid number format: Multiple exponentional notation characters")
        { s' with currentState := .Start }
      else advAppend s
    else if c = '+' || c = '-' then
      if (match s.buffer.getLast? with | some l => l = 'e' || l = 'E' | none => false) then
        advAppend s
      else
        let s' := emit "Number" s
        { s' with currentState := .Start }
    else if c = 'x' || c = 'b' || c = 'o' then
      if s.buffer = ['0'] then advAppend s
      else
        let s' := emit "Number" s
        { s' with currentState := .Start }
    else
      let s' := emit "Number" s
      { s' with currentState := .Start }
  | .Operator =>
    -- "Initialize trie if starting over" (the `?? ` reassignments of
    -- lineStart/colStart in this branch are no-ops on non-nullable numbers)
    let init := match s.operatorNode with
      | some n => (n, s)
      | none => (operatorTrie, { s with operatorNode := some operatorTrie,
                                        lastValidOperatorNode := none })
    let node := init.1
    let s0 := init.2
    match trieStep node c with
    | some stepNode =>
      let s1 := advAppend s0
      let s2 := { s1 with operatorNode := some stepNode }
      match stepNode.tokenType with
      | some _ => { s2 with lastValidOperatorNode := some (stepNode, s2.buffer.length) }
      | none => s2
    | none =>
      let s' :=
        match s0.lastValidOperatorNode with
        | some (opNode, len) =>
          let s1 := match opNode.tokenType with
            | some tt => emit tt s0
            | none => s0
          -- `rewind = this.buffer.length - len` is computed *after* `emit`
          -- cleared the buffer; a negative value runs the rewind loop zero
          -- times (Int.toNat of a negative is 0)
          let rewind : Int := (s1.buffer.length : Int) - (len : Int)
          { s1 with position := s1.position - rewind.toNat,
                    col := s1.col - (rewind.toNat : Int) }
        | none =>
          let s1 := addLexError s0
            ("Invalid operator '" ++ String.mk (s0.buffer ++ [c]) ++ "'")
          (lexAdvance s1).2
      { s' with operatorNode := none, lastValidOperatorNode := none,
                buffer := [], currentState := .Start }
  | .Comment =>
    if s.commentType = "" then
      let p := lexAdvance s
      match p.1 with
      | some nc =>
        if (commentMap (String.singleton nc)).isSome then
          { p.2 with commentType := String.singleton nc }
        else { p.2 with commentType := "none" }
      | none => { p.2 with commentType := "none" }
    else
      match commentMap s.commentType with
      | none => s  -- unreachable: commentType is always "", "none" or a marker
      | some (tokenType, commentEnd) =>
        if commentEnd.length = 2 &&
            (match lexPeek s 1 with
             | some c2 => String.mk [c, c2] = commentEnd
             | none => false) then
          let s1 := (lexAdvance (lexAdvance s).2).2
          let s2 := if tokenType ≠ "Comment_MultilineIgnored" then emit tokenType s1 else s1
          { s2 with currentState := .Start, commentType := "" }
        else if commentEnd.length = 1 && String.singleton c = commentEnd then
          let s1 := (lexAdvance s).2
          let s2 := if tokenType ≠ "Comment_SingleIgnored" then emit tokenType s1 else s1
          { s2 with currentState := .Start, commentType := "" }
        else
          -- `this.buffer += this.advance() ?? ""`
          let p := lexAdvance s
          { p.2 with buffer := p.2.buffer ++ (match p.1 with | some ch => [ch] | none => []) }
  | .Punctuation => s  -- no case in the switch: the state does nothing
  | .Start => s        -- handled by processChar, never dispatched here

/-- `Lexer.processChar(char)`: the `Start`-state dispatch, deferring to
`processState` for every other state. -/
def processChar (c : Char) (s : LexState) : LexState :=
  match s.currentState with
  | .Start =>
    let s := { s with colStart := s.col, lineStart := s.line }
    if isJsSpace c then (lexAdvance s).2
    else if isIdentStart c then { advAppend s with currentState := .Identifier }
    else if (c.isDigit || c = '-') || (c = '.' && peekSat (lexPeek s 1) Char.isDigit) then
      if peekSat (lexPeek s 1) (fun d => d = '.' || d.isDigit) || c.isDigit then
        { advAppend s with currentState := .Number }
      else
        -- "Just a minus sign": the character is not consumed
        { s with currentState := .Operator }
    else if c = '"' || c = '\'' then
      { advAppend s with currentState := .String, stringQuote := some c }
    else if c = '#' then { (lexAdvance s).2 with currentState := .Comment }
    else if singleCharUnitTokens.contains (String.singleton c) then
      { s with currentState := .Operator, operatorNode := some operatorTrie }
    else if c = eofSentinel then emit "<EOF>" (lexAdvance s).2
    else addLexError s ("Unexpected character '" ++ String.singleton c ++ "'")
  | _ => processState c s

/-- The initial lexer state for a source string: `\x04` and `\r` characters
are removed, then the `\x04` sentinel is appended, and every mutable field is
reset exactly as at the top of `tokenize`. -/
def stripSrc (src : String) : List Char :=
  (src.data.filter (fun c => c ≠ eofSentinel)).filter (fun c => c ≠ '\r')

def initLexState (src : String) : LexState :=
  { src := stripSrc src ++ [eofSentinel]
  , position := 0, line := 1, lineStart := 0, col := 1, colStart := 1
  , currentState := .Start, buffer := [], stringQuote := none, commentType := ""
  , operatorNode := none, lastValidOperatorNode := none, tokens := [], errors := [] }

/-- The `while (this.position < this.src.length)` loop of `tokenize`, indexed
by fuel; `none` means the loop has not terminated within the budget. -/
def lexLoop : Nat → LexState → Option LexState
  | 0, _ => none
  | fuel+1, s =>
    if s.position < s.src.length then
      match lexPeek s 0 with
      | none => some s  -- the `if (char === null) break` arm (unreachable under the guard)
      | some c => lexLoop fuel (processChar c s)
    else some s

/-- `Lexer.tokenize(src)`: run the loop, then
`this.buffer = "\x04"; this.emit("<EOF>")`.  The whole final lexer state is
returned so that theorems can inspect both `tokens` and `errors`. -/
def tokenize (fuel : Nat) (src : String) : Option LexState :=
  match lexLoop fuel (initLexState src) with
  | none => none
  | some s => some (emit "<EOF>" { s with buffer := [eofSentinel] })

/-! ## Binding power table (`BindingPowerTable.ts`)

The current table is keyed by token types, which in the current `Token.ts`
are the operator lexemes themselves. -/

structure BindingPower where
  lbp : Nat
  rbp : Nat
deriving DecidableEq, Repr

/-- The entries of `bindingPowerTable`, in source order. -/
def bindingPowerList : List (String × BindingPower) :=
  [("||", ⟨20, 19⟩), ("&&", ⟨30, 29⟩), ("!|", ⟨25, 24⟩), ("!&", ⟨25, 24⟩),
   ("!^", ⟨25, 24⟩), ("^", ⟨25, 24⟩),
   ("==", ⟨45, 44⟩), ("<", ⟨50, 49⟩), (">", ⟨50, 49⟩), ("<=", ⟨50, 49⟩), (">=", ⟨50, 49⟩),
   ("+", ⟨60, 59⟩), ("-", ⟨60, 59⟩), ("*", ⟨70, 69⟩), ("/", ⟨70, 69⟩), ("%", ⟨70, 69⟩),
   ("**", ⟨80, 81⟩),
   ("!", ⟨0, 79⟩), ("UnaryMinus", ⟨0, 79⟩),
   (".", ⟨100, 100⟩), ("(", ⟨110, 110⟩), ("[", ⟨110, 110⟩)]

/-- `bindingPowerTable[key]` (`undefined` is `none`). -/
def bindingPowerTable (key : String) : Option BindingPower :=
  (bindingPowerList.find? (fun p => p.1 = key)).map (fun p => p.2)

/-- `getBindingPower(token)`: `bindingPowerTable[token.token.type] || {0,0}`. -/
def getBindingPower (t : Option Token) : BindingPower :=
  match t with
  | none => ⟨0, 0⟩
  | some tok => (bindingPowerTable tok.token.type).getD ⟨0, 0⟩

/-! ## AST model (`AST-nodes.ts`) -/

/-- `TypeNode`: a named type with optional generic parameters, or a union. -/
inductive TypeNode where
  | single (typeName : String) (typeParams : Option (List TypeNode)) (loc : SourceLocation)
  | union (left right : TypeNode) (loc : SourceLocation)
deriving Repr

def TypeNode.loc : TypeNode → SourceLocation
  | .single _ _ l => l
  | .union _ _ l => l

mutual

/-- `ExpressionNode` variants built by the parser.  Number literals keep the
raw token text (the source's `Number(...)` float conversion is irrelevant to
every property below). -/
inductive Expr where
  | errorToken (value : String) (loc : SourceLocation)
  | unary (operator : String) (argument : Expr) (loc : SourceLocation)
  | empty (loc : SourceLocation)
  | list (elements : List Expr) (loc : SourceLocation)
  | dict (entries : List DictEntry) (loc : SourceLocation)
  | ident (name : String) (loc : SourceLocation)
  | literal (value : String) (valueType : String) (loc : SourceLocation)
  | call (callee : Expr) (arguments : List Expr) (loc : SourceLocation)
  | member (object : Expr) (property : Expr) (loc : SourceLocation)
  | binary (operator : String) (left right : Expr) (loc : SourceLocation)
deriving Repr

inductive DictEntry where
  | mk (key value : Expr)
deriving Repr

/-- `StatementNode` variants built by the parser. -/
inductive Stmt where
  | exprStmt (expression : Expr) (loc : SourceLocation)
  | handler (call : Expr) (body : BlockNode) (loc : SourceLocation)
  | procDecl (name : String) (decorators : List DecoratorNode)
      (parameters : List ParameterNode) (returnType : TypeNode)
      (body : List Stmt) (loc : SourceLocation)
  | enumDecl (name : String) (members : List String) (loc : SourceLocation)
  | varDecl (access : String) (name : String) (varType : TypeNode)
      (initializer : Expr) (loc : SourceLocation)
  | errorStmt (message : String) (loc : SourceLocation)
deriving Repr

inductive BlockNode where
  | mk (body : List Stmt) (loc : SourceLocation)
deriving Repr

inductive DecoratorNode where
  | mk (name : String) (value : Expr) (loc : SourceLocation)
deriving Repr

inductive ParameterNode where
  | mk (name : String) (paramType : TypeNode) (default : Option Expr) (loc : SourceLocation)
deriving Repr

end

def Expr.loc : Expr → SourceLocation
  | .errorToken _ l => l
  | .unary _ _ l => l
  | .empty l => l
  | .list _ l => l
  | .dict _ l => l
  | .ident _ l => l
  | .literal _ _ l => l
  | .call _ _ l => l
  | .member _ _ l => l
  | .binary _ _ _ l => l

/-- `expression.type == "CallExpression"`. -/
def Expr.isCall : Expr → Bool
  | .call _ _ _ => true
  | _ => false

def Stmt.loc : Stmt → SourceLocation
  | .exprStmt _ l => l
  | .handler _ _ l => l
  | .procDecl _ _ _ _ _ l => l
  | .enumDecl _ _ l => l
  | .varDecl _ _ _ _ l => l
  | .errorStmt _ l => l

/-- The `Program` node returned by `parse`. -/
structure AST where
  body : List Stmt
deriving Repr

/-! ## Parser (`Parser.ts`) -/

namespace Parser

/-- The mutable fields of the `Parser` class, plus the diagnostic reporter. -/
structure ParserSt where
  tokens : List Token
  position : Nat
  errors : List KatnipError
deriving Repr

/-- Result of a parser computation: `out` models running out of fuel (a run
that has not terminated within the budget), `crash` a thrown JavaScript
exception, `ok` a value plus the updated parser state. -/
inductive PRes (α : Type) where
  | out
  | crash
  | ok (value : α) (s : ParserSt)
deriving Repr

def PRes.bind : PRes α → (α → ParserSt → PRes β) → PRes β
  | .out, _ => .out
  | .crash, _ => .crash
  | .ok a s, f => f a s

/-- `Parser.peek()`. -/
def peek (s : ParserSt) : Option Token :=
  if s.position < s.tokens.length then s.tokens.get? s.position else none

/-- `Parser.previous()`. -/
def previous (s : ParserSt) : Option Token :=
  if s.position > 0 then s.tokens.get? (s.position - 1) else none

/-- `Parser.isAtEnd()`: `peek()?.token.type === "EOF"` (`undefined` compares
unequal). -/
def isAtEnd (s : ParserSt) : Bool :=
  match peek s with
  | some t => t.token.type = "EOF"
  | none => false

/-- `Parser.advance()`: moves only when not at end, returns `previous()`. -/
def advance (s : ParserSt) : Option Token × ParserSt :=
  let s' := if !isAtEnd s then { s with position := s.position + 1 } else s
  (previous s', s')

/-- The `"type" | "value"` discriminator of `checkToken`/`tryConsume`. -/
inductive CheckKind where
  | type
  | value
deriving DecidableEq, Repr

/-- `Parser.checkToken(kind, patterns)`. -/
def checkToken (s : ParserSt) (kind : CheckKind) (patterns : List String) : Bool :=
  if isAtEnd s then false
  else
    match peek s with
    | none => false
    | some t =>
      match kind with
      | .type => patterns.contains t.token.type
      | .value =>
        if !isValuedTokenType t.token.type then false
        else patterns.contains t.token.valueJS

/-- `Parser.tryConsume(kind, patterns)`. -/
def tryConsume (s : ParserSt) (kind : CheckKind) (patterns : List String) : Bool × ParserSt :=
  if checkToken s kind patterns then (true, (advance s).2) else (false, s)

/-- The synthetic token `consume` fabricates on mismatch:
`{ token: { type: "ErrorToken", value: "" }, start: (-1,-1), end: (-1,-1) }`. -/
def errorTokenSentinel : Token :=
  ⟨.valued "ErrorToken" "", ⟨-1, -1⟩, ⟨-1, -1⟩⟩

/-- `this.reporter.add(new KatnipError("Parser", msg, pos))`. -/
def addParseError (s : ParserSt) (msg : String) (pos : TokenPos) : ParserSt :=
  { s with errors := s.errors ++ [⟨"Parser", msg, pos.line, pos.column⟩] }

/-- `Parser.consume(options, message)`: consume on a type match, else on a
value match, else record one diagnostic (at the previous token's end if any,
else at the current token's start) and return the synthetic error token
without advancing.  `consume` called with neither types nor values throws. -/
def consume (s : ParserSt) (types values : List String) (msg : String) : PRes Token :=
  let t1 := tryConsume s .type types
  if !types.isEmpty && t1.1 then .ok ((previous t1.2).getD errorTokenSentinel) t1.2
  else
    let t2 := tryConsume s .value values
    if !values.isEmpty && t2.1 then .ok ((previous t2.2).getD errorTokenSentinel) t2.2
    else if types.isEmpty && values.isEmpty then .crash  -- `throw new Error(...)`
    else
      match previous s with
      | some prevTok => .ok errorTokenSentinel (addParseError s msg prevTok.stop)
      | none =>
        match peek s with
        | some cur => .ok errorTokenSentinel (addParseError s msg cur.start)
        | none => .ok errorTokenSentinel s

/-- `Parser.expect(options, message)`: a non-consuming `consume`-style check. -/
def expect (s : ParserSt) (types values : List String) (msg : String) : Bool × ParserSt :=
  if (!types.isEmpty && checkToken s .type types) ||
     (!values.isEmpty && checkToken s .value values) then (true, s)
  else
    match previous s with
    | some prev => (false, addParseError s msg prev.stop)
    | none =>
      match peek s with
      | some cur => (false, addParseError s msg cur.start)
      | none => (false, s)

/-- The `while` loop inside `Parser.synchronize`. -/
def syncLoop : Nat → ParserSt → List String → List String → String → TokenPos → PRes Unit
  | 0, _, _, _, _, _ => .out
  | f+1, s, types, values, msg, beginning =>
    if (peek s).isSome && !checkToken s .type types && !checkToken s .value values then
      syncLoop f (advance s).2 types values msg beginning
    else if (peek s).isNone then .ok () (addParseError s msg beginning)
    else .ok () s

/-- `Parser.synchronize(options, message)`: `this.peek()!.start` throws when
the cursor is past the end. -/
def synchronize (f : Nat) (s : ParserSt) (types values : List String) (msg : String) :
    PRes Unit :=
  match peek s with
  | none => .crash
  | some first => syncLoop f s types values msg first.start

mutual

/-- The `while (!this.isAtEnd())` statement loop of `Parser.parse`. -/
def parseStmtLoop : Nat → ParserSt → List Stmt → PRes (List Stmt)
  | 0, _, _ => .out
  | f+1, s, acc =>
    if !isAtEnd s then
      (parseStatement f s).bind fun st? s' =>
        parseStmtLoop f s' (acc ++ (match st? with | some st => [st] | none => []))
    else .ok acc s

/-- `Parser.parseStatement`: `none` models the `return null` of the comment
branch. -/
def parseStatement : Nat → ParserSt → PRes (Option Stmt)
  | 0, _ => .out
  | f+1, s =>
    if checkToken s .value ["proc"] then
      (parseProcedureDefinition f s).bind fun st s' => .ok (some st) s'
    else if checkToken s .value ["enum"] then
      (parseEnumDefinition f s).bind fun st s' => .ok (some st) s'
    else if checkToken s .type ["Comment_SingleExpanded", "Comment_SingleCollapsed",
        "Comment_MultilineExpanded", "Comment_MultilineCollapsed"] then
      .ok none (advance s).2
    else if checkToken s .type ["Identifier"] then
      if checkToken s .value ["private", "temp", "public"] then
        (parseVariableDeclaration f s).bind fun st s' => .ok (some st) s'
      else
        (parseExpression f s 0).bind fun expr s' =>
          if expr.isCall && checkToken s' .type ["BraceOpen"] then
            (parseBlockExpression f s').bind fun body s'' =>
              let bStart := (body.head?.map (fun st => st.loc.start)).getD expr.loc.start
              let bStop := (body.getLast?.map (fun st => st.loc.stop)).getD expr.loc.stop
              .ok (some (.handler expr (.mk body ⟨bStart, bStop⟩)
                    ⟨expr.loc.start, bStop⟩)) s''
          else
            (consume s' ["Semicolon"] []
                "Expected semicolon at the end of an expression statement").bind fun _ s'' =>
              .ok (some (.exprStmt expr ⟨expr.loc.start, expr.loc.stop⟩)) s''
    else
      match peek s with
      | none => .crash  -- `this.peek()!.token.type` on null
      | some tok =>
        let s1 := addParseError s ("Unexpected token: Type '" ++ tok.token.type ++ "'")
          tok.start
        .ok (some (.errorStmt "Failed to parse statement" ⟨⟨-1, -1⟩, ⟨-1, -1⟩⟩))
          (advance s1).2

/-- `Parser.parseProcedureDefinition`. -/
def parseProcedureDefinition : Nat → ParserSt → PRes Stmt
  | 0, _ => .out
  | f+1, s =>
    (consume s ["Identifier"] ["proc"] "Expected 'proc' keyword").bind fun _ s1 =>
    (consume s1 ["Identifier"] [] "Expected procedure name").bind fun nameToken s2 =>
    let tp := tryConsume s2 .type ["ParenOpen"]
    (if tp.1 then
      (procParamsLoop f tp.2 true [] []).bind fun dp s3 =>
        (consume s3 ["ParenClose"] []
            "Expected closing parenthesis for parameters").bind fun _ s4 =>
          .ok dp s4
     else .ok ([], []) tp.2).bind fun dp s5 =>
    (consume s5 ["Minus"] [] "Expected arrow return symbol piece '-'").bind fun _ s6 =>
    (consume s6 ["RightChevron"] []
        "Expected arrow return symbol piece '>' after '-'").bind fun _ s7 =>
    (parseTypeAnn f s7).bind fun returnType s8 =>
    (consume s8 ["BraceOpen"] []
        "Expected open curly brace '\x7b' for procedure body").bind fun _ s9 =>
    (procBodyLoop f s9 []).bind fun body s10 =>
    (consume s10 ["BraceClose"] []
        "Expected closing curly brace '\x7d' for procedure body").bind fun _ s11 =>
    .ok (.procDecl nameToken.token.valueJS dp.1 dp.2 returnType body
          ⟨nameToken.start, ((peek s11).map (fun t => t.stop)).getD ⟨-1, -1⟩⟩) s11

/-- The decorator/parameter loop of `parseProcedureDefinition`. -/
def procParamsLoop : Nat → ParserSt → Bool → List DecoratorNode → List ParameterNode →
    PRes (List DecoratorNode × List ParameterNode)
  | 0, _, _, _, _ => .out
  | f+1, s, pd, decs, params =>
    if checkToken s .type ["ParenClose"] then .ok (decs, params) s
    else
      let step : Bool × ParserSt :=
        if checkToken s .type ["AtSymbol"] then (pd, (advance s).2)
        else if checkToken s .type ["Identifier"] then (false, s)
        else (pd, addParseError s "Expected decorator or parameter"
              (((peek s).map (fun t => t.start)).getD ⟨-1, -1⟩))
      let pd' := step.1
      let s0 := step.2
      if pd' then
        (consume s0 ["Identifier"] [] "Expected decorator name").bind fun decNameToken s1 =>
        let e := expect s1 ["Equals", "Comma"] [] "Expected '=' or ',' after decorator name"
        (if !e.1 then
           synchronize f e.2 ["Comma", "Equals", "ParenClose"] [] "Failed to parse decorator value"
         else .ok () e.2).bind fun _ s2 =>
        let tEq := tryConsume s2 .type ["Equals"]
        (if tEq.1 then parseExpression f tEq.2 0
         else .ok (.literal "true" "string" ⟨decNameToken.start, decNameToken.stop⟩)
           tEq.2).bind fun decoratorValue s3 =>
        procParamsSep f s3 pd'
          (decs ++ [.mk decNameToken.token.valueJS decoratorValue
            ⟨decoratorValue.loc.start, decoratorValue.loc.stop⟩])
          params
      else
        (consume s0 ["Identifier"] [] "Expected parameter name").bind fun paramNameToken s1 =>
        (consume s1 ["Colon"] []
            "Expected ':' after parameter name for type annotation").bind fun _ s2 =>
        (parseTypeAnn f s2).bind fun paramType s3 =>
        let tEq := tryConsume s3 .type ["Equals"]
        (if tEq.1 then (parseExpression f tEq.2 0).bind fun d s4 => .ok (some d) s4
         else .ok none tEq.2).bind fun defaultValue s5 =>
        procParamsSep f s5 pd' decs
          (params ++ [.mk paramNameToken.token.valueJS paramType defaultValue
            ⟨paramNameToken.start,
             ((defaultValue.map (fun d => d.loc.stop)).getD paramType.loc.stop)⟩])

/-- The `if (!checkToken(ParenClose)) consume(Comma)` separator step at the
bottom of the decorator/parameter loop, followed by the next iteration. -/
def procParamsSep : Nat → ParserSt → Bool → List DecoratorNode → List ParameterNode →
    PRes (List DecoratorNode × List ParameterNode)
  | 0, _, _, _, _ => .out
  | f+1, s, pd, decs, params =>
    (if !checkToken s .type ["ParenClose"] then
      (consume s ["Comma"] [] "Expected ',' or ')'").bind fun _ s' => .ok () s'
     else .ok () s).bind fun _ s' =>
      procParamsLoop f s' pd decs params

/-- The `while (!isAtEnd && !checkToken(BraceClose))` body loop of
`parseProcedureDefinition`. -/
def procBodyLoop : Nat → ParserSt → List Stmt → PRes (List Stmt)
  | 0, _, _ => .out
  | f+1, s, acc =>
    if !isAtEnd s && !checkToken s .type ["BraceClose"] then
      (parseStatement f s).bind fun st? s' =>
        procBodyLoop f s' (acc ++ (match st? with | some st => [st] | none => []))
    else .ok acc s

/-- `Parser.parseEnumDefinition`. -/
def parseEnumDefinition : Nat → ParserSt → PRes Stmt
  | 0, _ => .out
  | f+1, s =>
    (consume s ["Identifier"] ["enum"] "Expected 'enum' keyword").bind fun _ s1 =>
    (consume s1 ["Identifier"] [] "Expected enum name").bind fun nameToken s2 =>
    (consume s2 ["BraceOpen"] [] "Expected opening brace for enum members").bind fun _ s3 =>
    (enumMembersLoop f s3 []).bind fun members s4 =>
    (consume s4 ["BraceClose"] [] "Expected closing brace for enum members").bind fun _ s5 =>
    .ok (.enumDecl nameToken.token.valueJS members
          ⟨nameToken.start, ((peek s5).map (fun t => t.stop)).getD ⟨-1, -1⟩⟩) s5

/-- The member loop of `parseEnumDefinition`. -/
def enumMembersLoop : Nat → ParserSt → List String → PRes (List String)
  | 0, _, _ => .out
  | f+1, s, acc =>
    if checkToken s .type ["BraceClose"] then .ok acc s
    else
      (consume s ["Identifier"] [] "Expected enum member name").bind fun memberToken s1 =>
      let acc' := acc ++ [memberToken.token.valueJS]
      let t := tryConsume s1 .type ["Comma"]
      let s2 :=
        if !t.1 && !checkToken t.2 .type ["BraceClose"] then
          addParseError t.2 "Expected ',' or ')'"
            (((peek t.2).map (fun tk => tk.start)).getD ⟨-1, -1⟩)
        else t.2
      enumMembersLoop f s2 acc'

/-- `Parser.parseVariableDeclaration`. -/
def parseVariableDeclaration : Nat → ParserSt → PRes Stmt
  | 0, _ => .out
  | f+1, s =>
    (consume s ["Identifier"] ["private", "public", "temp"]
        "Expected 'private', 'temp', or 'public' keyword").bind fun access s1 =>
    (consume s1 ["Identifier"] [] "Expected variable name").bind fun variableName s2 =>
    (consume s2 ["Colon"] []
        "Expected ':' after variable name for type annotation").bind fun _ s3 =>
    (parseTypeAnn f s3).bind fun typeAnnotation s4 =>
    (consume s4 ["Equals"] []
        "Expected '=' after type annotation for variable declaration").bind fun _ s5 =>
    (parseExpression f s5 0).bind fun initializer s6 =>
    (consume s6 ["Semicolon"] []
        "Expected ';' at the end of variable declaration").bind fun _ s7 =>
    .ok (.varDecl access.token.valueJS variableName.token.valueJS typeAnnotation initializer
          ⟨access.start, ((peek s7).map (fun t => t.stop)).getD ⟨-1, -1⟩⟩) s7

/-- `Parser.parseTypeAnnotation`. -/
def parseTypeAnn : Nat → ParserSt → PRes TypeNode
  | 0, _ => .out
  | f+1, s => parseUnionType f s

/-- `Parser.parseUnionType`. -/
def parseUnionType : Nat → ParserSt → PRes TypeNode
  | 0, _ => .out
  | f+1, s => (parsePrimaryType f s).bind fun left s1 => unionLoop f s1 left

/-- The `while (tryConsume(Pipe))` loop of `parseUnionType`. -/
def unionLoop : Nat → ParserSt → TypeNode → PRes TypeNode
  | 0, _, _ => .out
  | f+1, s, left =>
    let t := tryConsume s .type ["Pipe"]
    if t.1 then
      (parsePrimaryType f t.2).bind fun right s1 =>
        unionLoop f s1 (.union left right ⟨left.loc.start, right.loc.stop⟩)
    else .ok left t.2

/-- `Parser.parsePrimaryType`. -/
def parsePrimaryType : Nat → ParserSt → PRes TypeNode
  | 0, _ => .out
  | f+1, s =>
    (consume s ["Identifier"] [] "Expected type name").bind fun typeNameToken s1 =>
    let typeName := typeNameToken.token.valueJS
    let t := tryConsume s1 .type ["LeftChevron"]
    if t.1 then
      (typeParamsLoop f t.2 []).bind fun typeParams s2 =>
      (consume s2 ["RightChevron"] [] "Expected closing '>'").bind fun _ s3 =>
      match previous s3 with
      | none => .crash  -- `this.previous()!.end`
      | some prev => .ok (.single typeName (some typeParams) ⟨typeNameToken.start, prev.stop⟩) s3
    else .ok (.single typeName none ⟨typeNameToken.start, typeNameToken.stop⟩) t.2

/-- The generic-parameter loop of `parsePrimaryType`. -/
def typeParamsLoop : Nat → ParserSt → List TypeNode → PRes (List TypeNode)
  | 0, _, _ => .out
  | f+1, s, acc =>
    if checkToken s .type ["RightChevron"] then .ok acc s
    else
      (parseTypeAnn f s).bind fun tpn s1 =>
      let t := tryConsume s1 .type ["Comma"]
      let s2 :=
        if !t.1 && !checkToken t.2 .type ["RightChevron"] then
          addParseError t.2 "Expected ',' or '>'"
            (((peek t.2).map (fun tk => tk.start)).getD ⟨-1, -1⟩)
        else t.2
      typeParamsLoop f s2 (acc ++ [tpn])

/-- `Parser.parseExpression(minBP)`. -/
def parseExpression : Nat → ParserSt → Nat → PRes Expr
  | 0, _, _ => .out
  | f+1, s, minBP =>
    (parsePrefixExpr f s).bind fun left s1 => exprInfixLoop f s1 left minBP

/-- The Pratt loop of `parseExpression`: stop on end of tokens or when the
next token's left binding power is not above `minBP`. -/
def exprInfixLoop : Nat → ParserSt → Expr → Nat → PRes Expr
  | 0, _, _, _ => .out
  | f+1, s, left, minBP =>
    match peek s with
    | none => .ok left s
    | some token =>
      let bp := getBindingPower (some token)
      if bp.lbp ≤ minBP then .ok left s
      else (parseInfixExpr f s left bp).bind fun left' s1 => exprInfixLoop f s1 left' minBP

/-- `Parser.parsePrefix`. -/
def parsePrefixExpr : Nat → ParserSt → PRes Expr
  | 0, _ => .out
  | f+1, s =>
    match peek s with
    | none => .ok (.errorToken "" ⟨⟨-1, -1⟩, ⟨-1, -1⟩⟩) s
    | some token =>
      let v := token.token.type
      if v = "Exclamation" || v = "Minus" then
        let s1 := (advance s).2
        let opKey := if v = "Minus" then "UnaryMinus" else v
        match bindingPowerTable opKey with
        | none => .crash  -- `const { rbp } = undefined` throws a TypeError
        | some bp =>
          (parseExpression f s1 bp.rbp).bind fun right s2 =>
            .ok (.unary v right ⟨token.start, right.loc.stop⟩) s2
      else
        let tParen := tryConsume s .type ["ParenOpen"]
        if tParen.1 then
          if checkToken tParen.2 .type ["ParenClose"] then
            let s2 := (advance tParen.2).2
            match previous s2 with
            | none => .crash  -- `this.previous()!.end`
            | some prev => .ok (.empty ⟨token.start, prev.stop⟩) s2
          else
            (parseExpression f tParen.2 0).bind fun expr s2 =>
            (consume s2 ["ParenClose"] []
                "Expected ')' after parenthesized expression").bind fun _ s3 =>
              .ok expr s3
        else
          let tBracket := tryConsume s .type ["BracketOpen"]
          if tBracket.1 then
            (bracketLoop f tBracket.2 []).bind fun listContents s2 =>
            (consume s2 ["BracketClose"] [] "Expected ']' after list expression").bind fun _ s3 =>
            match previous s3 with
            | none => .crash
            | some prev => .ok (.list listContents ⟨token.start, prev.stop⟩) s3
          else
            let tBrace := tryConsume s .type ["BraceOpen"]
            if tBrace.1 then
              (dictLoop f tBrace.2 []).bind fun entries s2 =>
              (consume s2 ["BraceClose"] []
                  "Expected '\x7d' after dictionary expression").bind fun _ s3 =>
              match previous s3 with
              | none => .crash
              | some prev => .ok (.dict entries ⟨token.start, prev.stop⟩) s3
            else if checkToken s .type ["Identifier"] then
              (consume s ["Identifier"] [] "Expected identifier").bind fun id s1 =>
                .ok (.ident id.token.valueJS ⟨id.start, id.stop⟩) s1
            else if checkToken s .type ["String"] then
              (consume s ["String"] [] "Expected string literal").bind fun lit s1 =>
                .ok (.literal lit.token.valueJS "string" ⟨lit.start, lit.stop⟩) s1
            else if checkToken s .type ["Number"] then
              (consume s ["Number"] [] "Expected number literal").bind fun lit s1 =>
                .ok (.literal lit.token.valueJS "number" ⟨lit.start, lit.stop⟩) s1
            else if checkToken s .type ["EOF"] then
              -- dead branch: checkToken returns false whenever isAtEnd is true
              .ok (.errorToken "" ⟨token.start, token.stop⟩) s
            else
              let uv : Option String :=
                if isValuedTokenType token.token.type then some token.token.valueJS else none
              let msg :=
                let base := "Unexpected token in expression: Type '" ++ token.token.type ++ "'"
                match uv with
                | some vv => if vv = "" then base else base ++ ", Value '" ++ vv ++ "'"
                | none => base
              let s1 := addParseError s msg token.start
              .ok (.errorToken "" ⟨token.start, token.stop⟩) (advance s1).2

/-- The element loop of the list-literal case of `parsePrefix`. -/
def bracketLoop : Nat → ParserSt → List Expr → PRes (List Expr)
  | 0, _, _ => .out
  | f+1, s, acc =>
    if !checkToken s .type ["Comma", "BracketClose"] then
      (parseExpression f s 0).bind fun e s1 =>
        bracketLoop f (tryConsume s1 .type ["Comma"]).2 (acc ++ [e])
    else .ok acc s

/-- The entry loop of the dictionary-literal case of `parsePrefix`. -/
def dictLoop : Nat → ParserSt → List DictEntry → PRes (List DictEntry)
  | 0, _, _ => .out
  | f+1, s, acc =>
    if !checkToken s .type ["Comma", "BraceClose"] then
      (parseExpression f s 0).bind fun key s1 =>
      (consume s1 ["Colon"] []
          "Expected ':' between dictionary key and value").bind fun _ s2 =>
      (parseExpression f s2 0).bind fun val s3 =>
        dictLoop f (tryConsume s3 .type ["Comma"]).2 (acc ++ [.mk key val])
    else .ok acc s

/-- `Parser.parseInfix`. -/
def parseInfixExpr : Nat → ParserSt → Expr → BindingPower → PRes Expr
  | 0, _, _, _ => .out
  | f+1, s, left, bp =>
    match peek s with
    | none =>
      let s1 := addParseError s "Unexpected end of input in infix expression" left.loc.stop
      .ok (.errorToken "" left.loc) s1
    | some token =>
      let tokenType := token.token.type
      if tokenType = "ParenOpen" then
        let s1 := (advance s).2
        (if !checkToken s1 .type ["ParenClose"] then callArgsLoop f s1 []
         else .ok [] s1).bind fun args s2 =>
        (consume s2 ["ParenClose"] [] "Expected ')' after parameters").bind fun _ s3 =>
          .ok (.call left args
                ⟨left.loc.start, ((peek s3).map (fun t => t.stop)).getD token.stop⟩) s3
      else if tokenType = "Dot" then
        let s1 := (advance s).2
        (consume s1 ["Identifier"] [] "Expected property name after '.'").bind fun id s2 =>
          .ok (.member left (.ident id.token.valueJS ⟨id.start, id.stop⟩)
                ⟨left.loc.start, id.stop⟩) s2
      else
        let tokenValue :=
          if isValuedTokenType token.token.type then token.token.valueJS else token.token.type
        let s1 := (advance s).2
        (parseExpression f s1 bp.rbp).bind fun right s2 =>
          .ok (.binary tokenValue left right ⟨left.loc.start, right.loc.stop⟩) s2

/-- The `do { args.push(parseExpression()) } while (tryConsume(Comma))`
argument loop of the call case of `parseInfix`. -/
def callArgsLoop : Nat → ParserSt → List Expr → PRes (List Expr)
  | 0, _, _ => .out
  | f+1, s, acc =>
    (parseExpression f s 0).bind fun e s1 =>
      let t := tryConsume s1 .type ["Comma"]
      if t.1 then callArgsLoop f t.2 (acc ++ [e]) else .ok (acc ++ [e]) t.2

/-- `Parser.parseBlockExpression`. -/
def parseBlockExpression : Nat → ParserSt → PRes (List Stmt)
  | 0, _ => .out
  | f+1, s =>
    (consume s ["BraceOpen"] [] "Expected '\x7b' after method call").bind fun _ s1 =>
    (blockStmtLoop f s1 []).bind fun body s2 =>
    (consume s2 ["BraceClose"] [] "Expected '\x7d' to close block").bind fun _ s3 =>
      .ok body s3

/-- The statement loop of `parseBlockExpression`. -/
def blockStmtLoop : Nat → ParserSt → List Stmt → PRes (List Stmt)
  | 0, _, _ => .out
  | f+1, s, acc =>
    if !isAtEnd s && !checkToken s .type ["BraceClose"] then
      (parseStatement f s).bind fun st? s' =>
        blockStmtLoop f s' (acc ++ (match st? with | some st => [st] | none => []))
    else .ok acc s

end

/-- `Parser.parse(tokens)`: reset the cursor, run the statement loop, wrap the
result in a `Program` node. -/
def parse (fuel : Nat) (tokens : List Token) : PRes AST :=
  match fuel with
  | 0 => .out
  | f+1 => (parseStmtLoop f ⟨tokens, 0, []⟩ []).bind fun stmts s => .ok ⟨stmts⟩ s

end Parser

/-! ## Concrete inputs used by the claim theorems -/

/-- Build a token from its info and span coordinates. -/
def mkTok (ti : TokenInfo) (l1 c1 l2 c2 : Int) : Token := ⟨ti, ⟨l1, c1⟩, ⟨l2, c2⟩⟩

/-- The token sequence of the source `private y: T = [1` (an unclosed list
literal as a variable initializer), ending in an EOF token.  Token types are
the names the parser compares against. -/
def c2Toks : List Token :=
  [ mkTok (.valued "Identifier" "private") 1 1 1 8
  , mkTok (.valued "Identifier" "y") 1 9 1 10
  , mkTok (.unit "Colon") 1 10 1 11
  , mkTok (.valued "Identifier" "T") 1 12 1 13
  , mkTok (.unit "Equals") 1 14 1 15
  , mkTok (.unit "BracketOpen") 1 16 1 17
  , mkTok (.valued "Number" "1") 1 17 1 18
  , mkTok (.unit "EOF") 1 18 1 19 ]

/-- The error token the parser reports at end of input inside `c2Toks`
(`parsePrefix` falls through to its last branch there). -/
def c2ErrTok : Expr := .errorToken "" ⟨⟨1, 18⟩, ⟨1, 19⟩⟩

/-- The diagnostic added on every iteration of the non-terminating loop on
`c2Toks`. -/
def c2EofErr : KatnipError := ⟨"Parser", "Unexpected token in expression: Type 'EOF'", 1, 18⟩

/-- The literal `1` parsed by the first iteration of the list-element loop on
`c2Toks`. -/
def c2Lit : Expr := .literal "1" "number" ⟨⟨1, 17⟩, ⟨1, 18⟩⟩

/-- The token sequence of `proc f(a) -> T {}` (a parameter without a type
annotation). -/
def c9Toks : List Token :=
  [ mkTok (.valued "Identifier" "proc") 1 1 1 5
  , mkTok (.valued "Identifier" "f") 1 6 1 7
  , mkTok (.unit "ParenOpen") 1 7 1 8
  , mkTok (.valued "Identifier" "a") 1 8 1 9
  , mkTok (.unit "ParenClose") 1 9 1 10
  , mkTok (.unit "Minus") 1 11 1 12
  , mkTok (.unit "RightChevron") 1 12 1 13
  , mkTok (.valued "Identifier" "T") 1 14 1 15
  , mkTok (.unit "BraceOpen") 1 16 1 17
  , mkTok (.unit "BraceClose") 1 17 1 18
  , mkTok (.unit "EOF") 1 18 1 19 ]

/-- The lexicographic order on `(line, column)` pairs used by the span
invariant: start precedes or equals end. -/
def posLe (a b : TokenPos) : Bool :=
  a.line < b.line || (a.line = b.line && a.column ≤ b.column)

/-- A parser state whose cursor sits on the `Number` token of
`x 5 <EOF>` — one token already consumed, current token not `EOF`. -/
def c7St : Parser.ParserSt :=
  { tokens := [ mkTok (.valued "Identifier" "x") 1 1 1 2
              , mkTok (.valued "Number" "5") 1 4 1 5
              , mkTok (.unit "EOF") 1 6 1 7 ]
  , position := 1, errors := [] }

/-! ## Helper lemmas -/

/-- One step of the lexer on `"$"` never moves: in the `Start` state the
unexpected-character branch reports a diagnostic but does not advance, so
every iteration of the loop sees position 0 again. -/
theorem lexLoop_dollar (fuel : Nat) : ∀ (lineStart colStart : Int) (buffer : List Char)
    (quote : Option Char) (ct : String) (opN : Option OperatorTrieNode)
    (lvN : Option (OperatorTrieNode × Nat)) (toks : List Token) (errs : List KatnipError),
    lexLoop fuel ⟨['$', eofSentinel], 0, 1, lineStart, 1, colStart, .Start, buffer, quote,
        ct, opN, lvN, toks, errs⟩ = none := by
  induction fuel with
  | zero => intro _ _ _ _ _ _ _ _ _; rfl
  | succ f ih =>
    intro lineStart colStart buffer quote ct opN lvN toks errs
    exact ih 1 1 buffer quote ct opN lvN toks
      (errs ++ [⟨"Lexer", "Unexpected character '$'", 1, 1⟩])

/-- A computation that has already run out of fuel stays out of fuel under
`bind`. -/
theorem Parser.bind_out (X : Parser.PRes α) (k : α → Parser.ParserSt → Parser.PRes β)
    (h : X = .out) : X.bind k = (.out : Parser.PRes β) := by subst h; rfl

/-- On `c2Toks` with the cursor on the EOF token, the list-element loop of
`parsePrefix` never terminates: `parseExpression` returns an error token
without advancing (the EOF check in `parsePrefix` is unreachable because
`checkToken` filters end-of-input, and `advance` does not move at EOF), and
the loop guard never sees `Comma`/`BracketClose`. -/
theorem Parser.bracketLoop_c2 (f : Nat) : ∀ (acc : List Expr) (errs : List KatnipError),
    Parser.bracketLoop f ⟨c2Toks, 7, errs⟩ acc = .out := by
  induction f with
  | zero => intro acc errs; rfl
  | succ f ih =>
    intro acc errs
    obtain _ | f2 := f
    · rfl
    obtain _ | j := f2
    · rfl
    exact ih (acc ++ [c2ErrTok]) (errs ++ [c2EofErr])

/-- The list-element loop on `c2Toks` starting at the `Number` token: the
first iteration consumes the literal and reaches the EOF position, after
which `Parser.bracketLoop_c2` applies. -/
theorem Parser.bracketLoop_c2_first (f : Nat) (acc : List Expr) (errs : List KatnipError) :
    Parser.bracketLoop f ⟨c2Toks, 6, errs⟩ acc = .out := by
  obtain _ | f := f
  · rfl
  obtain _ | f := f
  · rfl
  obtain _ | j := f
  · rfl
  exact Parser.bracketLoop_c2 (j+2) (acc ++ [c2Lit]) errs

/-- Removing `\x04` and `\r` characters is idempotent. -/
theorem stripSrc_idempotent (src : String) :
    stripSrc (String.mk (stripSrc src)) = stripSrc src := by
  show ((stripSrc src).filter (fun c => c ≠ eofSentinel)).filter (fun c => c ≠ '\r')
      = stripSrc src
  unfold stripSrc
  simp only [List.filter_filter]
  apply List.filter_congr
  intro x _
  by_cases h1 : x = eofSentinel <;> by_cases h2 : x = '\r' <;> simp [h1, h2]

/-! ## Claim theorems -/

/-- C1.  The claim says `tokenize` terminates on every input, in particular
on a source containing a character that starts no token such as `'$'`.  It
does not: on `"$"` the `Start` state's unexpected-character branch reports a
diagnostic without consuming the character, so the `while` loop never
advances — for every fuel budget the run is still unfinished (`none`), i.e.
`tokenize("$")` loops forever. -/
theorem tokenize_dollar_diverges (fuel : Nat) : tokenize fuel "$" = none := by
  have h : initLexState "$" = ⟨['$', eofSentinel], 0, 1, 0, 1, 1, .Start, [], none, "",
      none, none, [], []⟩ := rfl
  rw [tokenize, h, lexLoop_dollar]

/-- C2.  The claim says `parse` terminates on every token sequence ending in
EOF, including truncated inputs with an unclosed list literal.  It does not:
on the tokens of `private y: T = [1` followed by EOF, the list-element loop
inside `parsePrefix` repeats forever at the EOF token (the EOF branch of
`parsePrefix` is dead code because `checkToken` returns false at end of
input, and the fallback's `advance()` is a no-op at EOF), so for every fuel
budget `parse` is still unfinished. -/
theorem Parser.parse_unclosed_list_diverges (fuel : Nat) :
    Parser.parse fuel c2Toks = .out := by
  obtain _ | a := fuel
  · rfl
  obtain _ | b := a
  · rfl
  obtain _ | c := b
  · rfl
  obtain _ | d := c
  · rfl
  obtain _ | e := d
  · rfl
  obtain _ | g := e
  · rfl
  obtain _ | h := g
  · rfl
  exact Parser.bind_out _ _ (Parser.bind_out _ _ (Parser.bind_out _ _ (Parser.bind_out _ _
    (Parser.bind_out _ _ (Parser.bind_out _ _ (Parser.bracketLoop_c2_first (h+1) [] []))))))

/-- C3.  Tokenizing `">="` does yield exactly one operator token of kind
`>=` (the first conjunct), but the claimed backtracking to the last trie node
that terminated a valid operator never happens: the rewind count is computed
after `emit` has already cleared the buffer, so it is negative and the rewind
loop runs zero times.  On `"<Ex"` the walk consumes `<` and `E` (towards
`<EOF>`), emits `<`, and resumes at `x` — the `E` is dropped instead of being
re-lexed into an identifier `Ex` (second conjunct). -/
theorem tokenize_operator_longest_match_no_rewind :
    (tokenize 50 ">=").map (fun s => (s.tokens.map Token.token, s.errors)) =
      some ([.unit ">=", .unit "<EOF>", .unit "<EOF>"], []) ∧
    (tokenize 50 "<Ex").map (fun s => (s.tokens.map Token.token, s.errors)) =
      some ([.unit "<", .valued "Identifier" "x", .unit "<EOF>", .unit "<EOF>"], []) := by
  exact ⟨by decide, by decide⟩

/-- C4.  The claim says lexing `"\u0041"` produces a string token whose
content is the single character `A`, and `"\q"` the literal `q`.  The code
decodes the `\uXXXX` escape (and passes unrecognized escapes through) with no
diagnostic, but the backslash that introduced the escape was already appended
to the buffer and the quotes are kept, so the token text is `"\A"` (four
characters), not `A` — and `"\q"`'s token text is `"\q"`. -/
theorem tokenize_escape_keeps_backslash :
    (tokenize 50 "\"\\u0041\"").map (fun s => (s.tokens.map Token.token, s.errors)) =
      some ([.valued "String" "\"\\A\"", .unit "<EOF>", .unit "<EOF>"], []) ∧
    (tokenize 50 "\"\\q\"").map (fun s => (s.tokens.map Token.token, s.errors)) =
      some ([.valued "String" "\"\\q\"", .unit "<EOF>", .unit "<EOF>"], []) ∧
    ("\"\\A\"" : String) ≠ "A" := by
  exact ⟨by decide, by decide, by decide⟩

/-- C5.  The claim says the unterminated string `"abc` yields exactly one
"unterminated string" diagnostic.  The code yields none: the `String` state
swallows the end-of-input sentinel into the buffer and the loop simply ends;
the lexer's "Unterminated string literal" report sits on a branch of the
`EscapedString` state that can never fire (the loop only dispatches
characters that exist).  No string token and no diagnostic are produced. -/
theorem tokenize_unterminated_string_silent :
    (tokenize 50 "\"abc").map (fun s => (s.tokens.map Token.token, s.errors)) =
      some ([.unit "<EOF>"], []) := by decide

/-- C6 counterexample.  The claim says the unary right binding power (79)
strictly exceeds the left binding power of every binary operator in the table
except call, member access and indexing.  Exponentiation `**` is a binary
operator in the table with left binding power 80, and 79 is not greater
than 80. -/
theorem unary_binding_power_cex :
    bindingPowerTable "**" = some ⟨80, 81⟩ ∧
    bindingPowerTable "!" = some ⟨0, 79⟩ ∧
    bindingPowerTable "UnaryMinus" = some ⟨0, 79⟩ ∧
    ("**", (⟨80, 81⟩ : BindingPower)) ∈ bindingPowerList ∧
    ¬ (79 > 80) := by
  exact ⟨rfl, rfl, rfl, by decide, by decide⟩

/-- C6 amended.  Unary `!` and unary minus have left binding power 0 and
right binding power 79, which strictly exceeds the left binding power of
every binary operator in the table except call `(`, member access `.`,
indexing `[` — and exponentiation `**`, whose left binding power 80 makes it
bind tighter than the unary operators. -/
theorem unary_binding_power_amended (p : String × BindingPower)
    (hmem : p ∈ bindingPowerList)
    (h1 : p.1 ≠ "!") (h2 : p.1 ≠ "UnaryMinus") (h3 : p.1 ≠ ".")
    (h4 : p.1 ≠ "(") (h5 : p.1 ≠ "[") (h6 : p.1 ≠ "**") :
    bindingPowerTable "!" = some ⟨0, 79⟩ ∧
    bindingPowerTable "UnaryMinus" = some ⟨0, 79⟩ ∧
    p.2.lbp < 79 := by
  refine ⟨rfl, rfl, ?_⟩
  fin_cases hmem <;> simp_all

/-- Witness for C6: the binary `+` entry has left binding power 60 < 79. -/
theorem unary_binding_power_amended_witness :
    ("+", (⟨60, 59⟩ : BindingPower)) ∈ bindingPowerList ∧
    (bindingPowerTable "!" = some ⟨0, 79⟩ ∧
     bindingPowerTable "UnaryMinus" = some ⟨0, 79⟩ ∧
     (⟨60, 59⟩ : BindingPower).lbp < 79) :=
  ⟨by decide, unary_binding_power_amended ("+", ⟨60, 59⟩) (by decide) (by decide) (by decide)
    (by decide) (by decide) (by decide) (by decide)⟩

/-- C7 counterexample.  The claim says a failed `consume` reports at the
current token's position, falling back to the previous token only at end of
input.  In `c7St` the cursor is not at end of input (the current token is the
`Number` starting at (1,4)), yet the diagnostic is recorded at (1,2) — the
previous token's end — because the code prefers `previous()` whenever any
token has been consumed, regardless of end of input. -/
theorem Parser.consume_position_cex :
    Parser.consume c7St ["Semicolon"] []
        "Expected semicolon at the end of an expression statement" =
      .ok Parser.errorTokenSentinel { c7St with errors :=
        [⟨"Parser", "Expected semicolon at the end of an expression statement", 1, 2⟩] } ∧
    Parser.isAtEnd c7St = false ∧
    (Parser.peek c7St).map Token.start = some ⟨1, 4⟩ ∧
    (Parser.previous c7St).map Token.stop = some ⟨1, 2⟩ ∧
    (⟨1, 2⟩ : TokenPos) ≠ ⟨1, 4⟩ :=
  ⟨rfl, rfl, rfl, rfl, by decide⟩

/-- C7 amended.  When `consume` matches neither the expected types nor the
expected values, it records exactly one diagnostic — at the previous token's
end position whenever at least one token has been consumed, otherwise at the
current token's start, and none at all when the token list is empty — and
returns the synthetic error token without advancing the cursor. -/
theorem Parser.consume_mismatch_amended (s : Parser.ParserSt)
    (types values : List String) (msg : String)
    (hty : Parser.checkToken s .type types = false)
    (hval : Parser.checkToken s .value values = false)
    (hne : (types.isEmpty && values.isEmpty) = false) :
    Parser.consume s types values msg = .ok Parser.errorTokenSentinel
      (match Parser.previous s with
       | some prevTok => Parser.addParseError s msg prevTok.stop
       | none =>
         match Parser.peek s with
         | some cur => Parser.addParseError s msg cur.start
         | none => s) := by
  unfold Parser.consume Parser.tryConsume
  rw [hty, hval]
  simp [hne]
  rcases hp : Parser.previous s with _ | pt <;> rcases hq : Parser.peek s with _ | ct <;>
    simp [hp, hq]

/-- Witness for C7: applying the amended `consume` behavior at `c7St`. -/
theorem Parser.consume_mismatch_amended_witness :
    Parser.checkToken c7St .type ["Semicolon"] = false ∧
    Parser.consume c7St ["Semicolon"] [] "m" = .ok Parser.errorTokenSentinel
      { c7St with errors := [⟨"Parser", "m", 1, 2⟩] } :=
  ⟨by decide, by
    have h := Parser.consume_mismatch_amended c7St ["Semicolon"] [] "m"
      (by decide) (by decide) (by decide)
    simpa using h⟩

/-- C8.  Tokenizing `"1.2.3"` yields one number token with text `1.2`, then
exactly one diagnostic for the second decimal point (at line 1 column 4), and
lexing resumes cleanly: the rest of the input is tokenized (as the number
`.3`) with no further diagnostics. -/
theorem tokenize_second_decimal_point :
    (tokenize 50 "1.2.3").map (fun s => (s.tokens.map Token.token, s.errors)) =
      some ([.valued "Number" "1.2", .valued "Number" ".3", .unit "<EOF>", .unit "<EOF>"],
            [⟨"Lexer", "Invalid number format: Multiple decimal points", 1, 4⟩]) := by decide

/-- C9.  The claim says every non-error node's span start precedes or equals
its end.  On the tokens of `proc f(a) -> T {}` the parser recovers from the
missing type annotation by substituting the synthetic error token, whose
`(-1,-1)` sentinel becomes the `Parameter` node's span end while its start is
the real position (1,8): a non-error node whose start does not precede or
equal its end under the lexicographic order. -/
theorem Parser.parse_parameter_span_inverted :
    Parser.parse 40 c9Toks =
      .ok ⟨[.procDecl "f" []
              [.mk "a" (.single "" none ⟨⟨-1, -1⟩, ⟨-1, -1⟩⟩) none ⟨⟨1, 8⟩, ⟨-1, -1⟩⟩]
              (.single "T" none ⟨⟨1, 14⟩, ⟨1, 15⟩⟩) [] ⟨⟨1, 6⟩, ⟨1, 19⟩⟩]⟩
        ⟨c9Toks, 10,
          [⟨"Parser", "Expected ':' after parameter name for type annotation", 1, 9⟩,
           ⟨"Parser", "Expected type name", 1, 9⟩]⟩ ∧
    posLe ⟨1, 8⟩ ⟨-1, -1⟩ = false := ⟨rfl, rfl⟩

/-- C10.  `tokenize` first deletes every `\x04` and every `\r` from the
source, so tokenizing any source gives exactly the same run — tokens, spans
and diagnostics — as tokenizing the stripped text: stripping is idempotent,
hence the initial lexer state (and with it the whole run, for every fuel
budget) coincides. -/
theorem tokenize_strip_invariant (fuel : Nat) (src : String) :
    tokenize fuel (String.mk (stripSrc src)) = tokenize fuel src := by
  rw [tokenize, tokenize, initLexState, initLexState, stripSrc_idempotent]

end Katnip
